import Mathlib

set_option maxRecDepth 8192

/-!
# Cooperative-system management: loan accounting engine, shallowly embedded

This file embeds the financial core of the cooperative-management service:
the computed properties of `Loan` and `Payments` from `src/models/models.py`
and the payment/loan mutation routes from `src/api/services.py`
(`register_loan`, `register_payment`, `update_payment`, `delete_payment`).

Conventions of the embedding:
* Monetary `Decimal` values with two decimal places are represented as
  integer *cents* (`Money := Int`).
* Python's `round(x, 2)` on `Decimal` rounds half to even; it is embedded as
  `roundHalfEven` on scaled integers.
* Python's `Decimal.__floordiv__` truncates toward zero; it is embedded as
  `Int.tdiv`.
* `dateutil.relativedelta(months=k)` adds calendar months and clamps the
  day-of-month to the length of the target month; it is embedded as
  `Date.addMonths`.
* `utc_now().date()` is passed explicitly as a `today : Date` argument.
* Fallible routes return `Except`, with one error constructor per
  `HTTPException` branch that the claims mention.
-/

/-- Monetary amounts in cents (`Decimal` with 2 decimal places, scaled by 100). -/
abbrev Money := Int

/-- Round `n / d` (with `d > 0`) to the nearest integer, ties to even:
the rounding mode of Python's `round(Decimal, 2)` (`ROUND_HALF_EVEN`). -/
def roundHalfEven (n d : Int) : Int :=
  let q := n / d
  let r := n % d
  if 2 * r < d then q
  else if d < 2 * r then q + 1
  else if q % 2 = 0 then q else q + 1

/-- A calendar date, as produced by `datetime.date`. -/
structure Date where
  year : Int
  month : Int
  day : Int
deriving DecidableEq

/-- Gregorian leap-year test (`calendar.isleap`). -/
def isLeap (y : Int) : Bool :=
  (y % 4 = 0 ∧ y % 100 ≠ 0) ∨ y % 400 = 0

/-- Number of days in a month of the Gregorian calendar. -/
def daysInMonth (y m : Int) : Int :=
  if m = 2 then (if isLeap y then 29 else 28)
  else if m = 4 ∨ m = 6 ∨ m = 9 ∨ m = 11 then 30
  else 31

/-- `date < date` in Python: lexicographic on (year, month, day). -/
def dateLt (a b : Date) : Bool :=
  a.year < b.year ∨
    (a.year = b.year ∧ (a.month < b.month ∨ (a.month = b.month ∧ a.day < b.day)))

/-- `date ≤ date` in Python: lexicographic on (year, month, day). -/
def dateLe (a b : Date) : Bool :=
  a.year < b.year ∨
    (a.year = b.year ∧ (a.month < b.month ∨ (a.month = b.month ∧ a.day ≤ b.day)))

/-- `d + relativedelta(months := k)`: calendar-month addition clamping the
day-of-month to the target month's length. -/
def Date.addMonths (d : Date) (k : Int) : Date :=
  let t := d.year * 12 + (d.month - 1) + k
  let y := t.fdiv 12
  let m := t.fmod 12 + 1
  { year := y, month := m, day := min d.day (daysInMonth y m) }

/-- Successor day in the Gregorian calendar. -/
def Date.nextDay (d : Date) : Date :=
  if d.day < daysInMonth d.year d.month then { d with day := d.day + 1 }
  else if d.month < 12 then { year := d.year, month := d.month + 1, day := 1 }
  else { year := d.year + 1, month := 1, day := 1 }

/-- Add `n` days to a date. -/
def Date.addDays (d : Date) : Nat → Date
  | 0 => d
  | n + 1 => d.nextDay.addDays n

/-- `Loan.status`: the code only ever stores the strings `"active"` and
`"paid"` (creation forces `"active"`; the payment routes flip between the
two; `LoanUpdate` exposes no status field). -/
inductive LoanStatus where
  | active
  | paid
deriving DecidableEq

/-- A `Payments` row: the three stored component columns
(`models.py`, `BasePayments`). `paid_at` plays no role in any computation. -/
structure Payment where
  principal_amount : Money
  interest_amount : Money
  late_fee_amount : Money
deriving DecidableEq

/-- `BasePayments.total_amount`: derived, never stored. -/
def Payment.total_amount (p : Payment) : Money :=
  p.principal_amount + p.interest_amount + p.late_fee_amount

/-- A `Loan` row together with its loaded `payments` relationship. -/
structure Loan where
  amount : Money
  monthly_payment : Money
  approved_at : Date
  status : LoanStatus
  payments : List Payment
deriving DecidableEq

/-- `Loan.remaining_balance`: `amount` minus the principal paid so far. -/
def Loan.remaining_balance (l : Loan) : Money :=
  l.amount - (l.payments.map Payment.principal_amount).sum

/-- `Loan.current_interest_due`: 0 if paid or balance ≤ 0, else
`round(remaining_balance * 0.015, 2)`. -/
def Loan.current_interest_due (l : Loan) : Money :=
  if l.status = .paid ∨ l.remaining_balance ≤ 0 then 0
  else roundHalfEven (l.remaining_balance * 15) 1000

/-- Total cash received on a loan: `sum(p.total_amount for p in payments)`. -/
def Loan.total_cash_paid (l : Loan) : Money :=
  (l.payments.map Payment.total_amount).sum

/-- `Loan.expected_installments_paid`:
`int(total_cash_paid // monthly_payment)`, and 0 when `monthly_payment ≤ 0`.
`Decimal.__floordiv__` truncates toward zero, hence `Int.tdiv`. -/
def Loan.expected_installments_paid (l : Loan) : Int :=
  if l.monthly_payment ≤ 0 then 0
  else Int.tdiv l.total_cash_paid l.monthly_payment

/-- `Loan.next_due_date`: `None` if paid, else
`approved_at.date() + relativedelta(months := expected_installments_paid + 1)`. -/
def Loan.next_due_date (l : Loan) : Option Date :=
  if l.status = .paid then none
  else some (l.approved_at.addMonths (l.expected_installments_paid + 1))

/-- The `months_late` quantity of `Loan.accumulated_late_fees`: whole-month
difference, incremented by one when `today.day ≥ due.day`. -/
def monthsLate (today due : Date) : Int :=
  (today.year - due.year) * 12 + (today.month - due.month) +
    (if due.day ≤ today.day then 1 else 0)

/-- `Loan.accumulated_late_fees`: 0 if paid or no due date; else, when
`today > next_due_date` and `months_late > 0`,
`round(monthly_payment * 0.03 * months_late, 2)`. -/
def Loan.accumulated_late_fees (l : Loan) (today : Date) : Money :=
  match l.next_due_date with
  | none => 0
  | some due =>
      if dateLt due today then
        let ml := monthsLate today due
        if 0 < ml then roundHalfEven (l.monthly_payment * 3 * ml) 100 else 0
      else 0

/-- `Member` with its loaded `loans` and `savings` relationships
(`savings` kept as the list of deposit amounts). -/
structure Member where
  loans : List Loan
  savings : List Money

/-- `Member.total_savings`: sum of all savings amounts. -/
def Member.total_savings (m : Member) : Money := m.savings.sum

/-- Error outcomes of `register_loan` (one per `HTTPException` branch past
the member lookup). -/
inductive LoanError where
  | duplicateActive
  | noSavings
  | exceedsLimit
  | monthlyTooHigh
deriving DecidableEq

/-- `register_loan` (`services.py`): guards in source order, then a new
`active` loan for the member. The member lookup itself is outside the model
(the member is an argument). -/
def register_loan (m : Member) (approved : Date) (amount monthly : Money) :
    Except LoanError Loan :=
  if 1 ≤ (m.loans.filter (fun l => l.status = LoanStatus.active)).length then
    .error .duplicateActive
  else if m.total_savings ≤ 0 then .error .noSavings
  else if 2 * m.total_savings < amount then .error .exceedsLimit
  else if amount < monthly then .error .monthlyTooHigh
  else .ok { amount := amount, monthly_payment := monthly,
             approved_at := approved, status := .active, payments := [] }

/-- Error outcomes of the payment routes. -/
inductive PayError where
  | loanPaid
  | overpayment
  | notFound
deriving DecidableEq

/-- The three-bucket waterfall split of `cash` against the currently due
late fees and interest: late fees first, then interest, remainder to
principal (`services.py`, register_payment / update_payment). -/
def waterfall (cash fees interest : Money) : Payment :=
  let late_fees_paid := min cash fees
  let cash1 := cash - late_fees_paid
  let interest_paid := min cash1 interest
  let cash2 := cash1 - interest_paid
  { principal_amount := cash2, interest_amount := interest_paid,
    late_fee_amount := late_fees_paid }

/-- `register_payment` (`services.py`): reject if the loan is paid, reject
overpayment above `remaining_balance + interest_due + accumulated_late_fees`,
otherwise run the waterfall, append the payment, and flip the status to
`paid` when `remaining_balance - principal_paid ≤ 0`. -/
def register_payment (l : Loan) (today : Date) (amount : Money) :
    Except PayError (Payment × Loan) :=
  if l.status = .paid then .error .loanPaid
  else
    let interest_due := l.current_interest_due
    let fees_due := l.accumulated_late_fees today
    let total_clearance := l.remaining_balance + interest_due + fees_due
    if total_clearance < amount then .error .overpayment
    else
      let p := waterfall amount fees_due interest_due
      let status' :=
        if l.remaining_balance - p.principal_amount ≤ 0 then LoanStatus.paid
        else l.status
      .ok (p, { l with status := status', payments := l.payments ++ [p] })

/-- `update_payment` (`services.py`): reconstruct the pre-payment state
(`pre_principal`, freshly recomputed `pre_interest`, `pre_late_fees`),
reject overpayment above their sum, re-run the waterfall, overwrite the
payment's components, then re-derive the status from the new balance.
The payment is addressed by its index in the loan's payment list. -/
def update_payment (l : Loan) (idx : Nat) (today : Date) (new_amount : Money) :
    Except PayError (Payment × Loan) :=
  match l.payments[idx]? with
  | none => .error .notFound
  | some old =>
      let pre_principal := l.remaining_balance + old.principal_amount
      let pre_interest := roundHalfEven (pre_principal * 15) 1000
      let pre_late := l.accumulated_late_fees today + old.late_fee_amount
      let total_clearance := pre_principal + pre_interest + pre_late
      if total_clearance < new_amount then .error .overpayment
      else
        let p := waterfall new_amount pre_late pre_interest
        let l1 : Loan := { l with payments := l.payments.set idx p }
        let status' :=
          if l1.remaining_balance ≤ 0 then LoanStatus.paid else LoanStatus.active
        .ok (p, { l1 with status := status' })

/-- `delete_payment` (`services.py`): if the loan is `paid`, unconditionally
revert it to `active`, then remove the payment row (single transaction). -/
def delete_payment (l : Loan) (idx : Nat) : Except PayError (Payment × Loan) :=
  match l.payments[idx]? with
  | none => .error .notFound
  | some p =>
      let status' := if l.status = .paid then LoanStatus.active else l.status
      .ok (p, { l with status := status', payments := l.payments.eraseIdx idx })

/-- The durable store contents after running `update_payment`'s try-block.
The route commits twice: first the amended payment columns, then the
re-derived status. `secondCommitFails = true` models the second
`session.commit()` raising; the subsequent `session.rollback()` discards
only the uncommitted second transaction, so the first commit stays durable. -/
def update_payment_durable (l : Loan) (idx : Nat) (today : Date)
    (new_amount : Money) (secondCommitFails : Bool) : Loan :=
  match l.payments[idx]? with
  | none => l
  | some old =>
      let pre_principal := l.remaining_balance + old.principal_amount
      let pre_interest := roundHalfEven (pre_principal * 15) 1000
      let pre_late := l.accumulated_late_fees today + old.late_fee_amount
      let total_clearance := pre_principal + pre_interest + pre_late
      if total_clearance < new_amount then l
      else
        let p := waterfall new_amount pre_late pre_interest
        let l1 : Loan := { l with payments := l.payments.set idx p }
        if secondCommitFails then l1
        else { l1 with status :=
                 if l1.remaining_balance ≤ 0 then LoanStatus.paid
                 else LoanStatus.active }

/-- The status⇔balance cache coherence invariant of the spec's data model:
`status == paid` exactly when `remaining_balance ≤ 0`. -/
def statusBalanceInvariant (l : Loan) : Prop :=
  l.status = .paid ↔ l.remaining_balance ≤ 0

/-- Modelled from the spec: `floor(Σ total_amount_of_payments / monthly_payment)`,
0 if `monthly_payment ≤ 0`, with a genuine mathematical floor (`Int.fdiv`).
For comparison with the source's `int(total_cash_paid // monthly_payment)`,
whose `Decimal` floor-division truncates toward zero. -/
def spec_expected_installments_paid (l : Loan) : Int :=
  if l.monthly_payment ≤ 0 then 0
  else Int.fdiv l.total_cash_paid l.monthly_payment

/-! ### Concrete instances used by the claims' scenarios -/

/-- Scenario A loan: `amount=1000.00`, `monthly_payment=100.00`, fresh. -/
def scenarioALoan : Loan := ⟨100000, 10000, ⟨2025, 1, 1⟩, .active, []⟩

/-- Scenario A loan after the on-time first payment of `100.00`. -/
def scenarioALoanAfter : Loan :=
  ⟨100000, 10000, ⟨2025, 1, 1⟩, .active, [⟨8500, 1500, 0⟩]⟩

/-- Scenario C loan: `amount=500.00`, one payment of `50.00` made on time
(split `interest=7.50`, `principal=42.50`). -/
def scenarioCLoan : Loan := ⟨50000, 5000, ⟨2025, 1, 1⟩, .active, [⟨4250, 750, 0⟩]⟩

/-- Scenario C loan after amending the payment to `100.00`. -/
def scenarioCLoanAfter : Loan :=
  ⟨50000, 5000, ⟨2025, 1, 1⟩, .active, [⟨9250, 750, 0⟩]⟩

/-- A loan whose two payments jointly clear the principal; the first covers
interest only (`principal_amount = 0`). -/
def c1Loan : Loan :=
  ⟨10000, 10000, ⟨2025, 1, 1⟩, .paid, [⟨0, 150, 0⟩, ⟨10000, 150, 0⟩]⟩

/-- `c1Loan` after deleting its zero-principal payment. -/
def c1LoanAfter : Loan :=
  ⟨10000, 10000, ⟨2025, 1, 1⟩, .active, [⟨10000, 150, 0⟩]⟩

/-- Fresh loan used to instantiate the create path. -/
def c1RegLoan : Loan := ⟨100000, 10000, ⟨2025, 1, 1⟩, .active, []⟩

/-- `c1RegLoan` after a payment of `100.00`. -/
def c1RegAfter : Loan :=
  ⟨100000, 10000, ⟨2025, 1, 1⟩, .active, [⟨8500, 1500, 0⟩]⟩

/-- `c1RegAfter` after amending its payment down to `50.00`. -/
def c1UpdAfter : Loan :=
  ⟨100000, 10000, ⟨2025, 1, 1⟩, .active, [⟨3500, 1500, 0⟩]⟩

/-- `c1RegAfter` after deleting its only payment. -/
def c1DelAfter : Loan := ⟨100000, 10000, ⟨2025, 1, 1⟩, .active, []⟩

/-- A fully paid loan (`amount=100.00`, one clearing payment). -/
def c4Loan : Loan := ⟨10000, 10000, ⟨2025, 1, 1⟩, .paid, [⟨10000, 150, 0⟩]⟩

/-- Scenario D loan: `monthly_payment=1000.00`, zero payments. -/
def c5Loan : Loan := ⟨100000, 100000, ⟨2025, 1, 1⟩, .active, []⟩

/-- Loan whose single payment has a negative `late_fee_amount` of `-5.00`
(as `register_payment` records for a requested amount of `-5.00`). -/
def c6Loan : Loan := ⟨10000, 10000, ⟨2025, 1, 1⟩, .active, [⟨0, 0, -500⟩]⟩

/-- Loan with non-negative cash history, for instantiating the amended C6. -/
def c6WLoan : Loan :=
  ⟨100000, 10000, ⟨2025, 1, 31⟩, .active, [⟨8500, 1500, 0⟩]⟩

/-- Loan with one on-time payment of `10.00` (`monthly_payment=10.00`),
evaluated months later so that late fees have accrued. -/
def c7Loan : Loan := ⟨10000, 1000, ⟨2025, 1, 1⟩, .active, [⟨850, 150, 0⟩]⟩

/-- `c7Loan` after amending its payment to its own total `10.00` on
`2025-06-01`: the accrued `1.20` of late fees is taken out of principal. -/
def c7LoanAfter : Loan := ⟨10000, 1000, ⟨2025, 1, 1⟩, .active, [⟨730, 150, 120⟩]⟩

/-- Loan used to instantiate the amended C7 (amend-to-same-amount while no
late fees have accrued). -/
def c7WLoan : Loan := ⟨50000, 5000, ⟨2025, 1, 1⟩, .active, [⟨4250, 750, 0⟩]⟩

/-- A loan with negative `monthly_payment` (`amount=0.00`,
`monthly_payment=-100.00`): `register_loan`'s guards admit it, since
`monthly_payment > amount` fails. -/
def c8Loan : Loan := ⟨0, -10000, ⟨2025, 1, 1⟩, .active, []⟩

/-- Unpaid loan with positive installment for instantiating the amended C8. -/
def c8WLoan : Loan := ⟨100000, 100000, ⟨2025, 1, 1⟩, .active, []⟩

/-- A member with savings `500.00` and no loans. -/
def c9Member : Member := ⟨[], [50000]⟩

/-- The loan `register_loan` creates for `c9Member` (`100.00` at `10.00`). -/
def c9Loan : Loan := ⟨10000, 1000, ⟨2025, 1, 1⟩, .active, []⟩

/-- Fresh active loan used for the negative-amount payment. -/
def c10Loan : Loan := ⟨10000, 1000, ⟨2025, 1, 1⟩, .active, []⟩

/-- `c10Loan` after the payment request of `-5.00`: the whole negative
amount is recorded as `late_fee_amount`. -/
def c10After : Loan := ⟨10000, 1000, ⟨2025, 1, 1⟩, .active, [⟨0, 0, -500⟩]⟩

/-! ## Helper lemmas -/

theorem roundHalfEven_cases (n : Int) {d : Int} (_ : 0 < d) :
    roundHalfEven n d = n / d ∨ roundHalfEven n d = n / d + 1 := by
  simp only [roundHalfEven]
  split_ifs <;> simp

theorem roundHalfEven_nonneg {n d : Int} (hd : 0 < d) (hn : 0 ≤ n) :
    0 ≤ roundHalfEven n d := by
  have hq : 0 ≤ n / d := Int.ediv_nonneg hn (le_of_lt hd)
  rcases roundHalfEven_cases n hd with h | h <;> rw [h] <;> linarith

theorem roundHalfEven_mono {n1 n2 d : Int} (hd : 0 < d) (h : n1 ≤ n2) :
    roundHalfEven n1 d ≤ roundHalfEven n2 d := by
  have hd0 : d ≠ 0 := ne_of_gt hd
  have hqle : n1 / d ≤ n2 / d := Int.ediv_le_ediv hd h
  have e1 : n1 % d = n1 - d * (n1 / d) := Int.emod_def n1 d
  have e2 : n2 % d = n2 - d * (n2 / d) := Int.emod_def n2 d
  have hr1 : 0 ≤ n1 % d := Int.emod_nonneg n1 hd0
  have hr1' : n1 % d < d := Int.emod_lt_of_pos n1 hd
  have hr2 : 0 ≤ n2 % d := Int.emod_nonneg n2 hd0
  have hr2' : n2 % d < d := Int.emod_lt_of_pos n2 hd
  rcases eq_or_lt_of_le hqle with hq | hq
  · have hrle : n1 % d ≤ n2 % d := by rw [e1, e2, hq]; linarith
    simp only [roundHalfEven]
    rw [hq]
    split_ifs <;> linarith
  · simp only [roundHalfEven]
    split_ifs <;> linarith

theorem dateLt_iff (a b : Date) :
    dateLt a b = true ↔
      (a.year < b.year ∨ (a.year = b.year ∧
        (a.month < b.month ∨ (a.month = b.month ∧ a.day < b.day)))) := by
  simp [dateLt]

theorem dateLe_iff (a b : Date) :
    dateLe a b = true ↔
      (a.year < b.year ∨ (a.year = b.year ∧
        (a.month < b.month ∨ (a.month = b.month ∧ a.day ≤ b.day)))) := by
  simp [dateLe]

theorem dateLt_of_lt_of_le {a b c : Date} (h1 : dateLt a b = true)
    (h2 : dateLe b c = true) : dateLt a c = true := by
  rw [dateLt_iff] at h1 ⊢
  rw [dateLe_iff] at h2
  omega

/-- The month produced by calendar-month addition lies in `1..12`. -/
theorem addMonths_month_bounds (d : Date) (k : Int) :
    1 ≤ (d.addMonths k).month ∧ (d.addMonths k).month ≤ 12 := by
  simp only [Date.addMonths]
  rw [Int.fmod_eq_emod _ (by norm_num)]
  omega

/-- `months_late ≥ 1` whenever today is strictly past the due date, for
calendar dates with months in `1..12`. -/
theorem monthsLate_pos {today due : Date} (h : dateLt due today = true)
    (hm1 : 1 ≤ today.month) (hm2 : today.month ≤ 12)
    (hm3 : 1 ≤ due.month) (hm4 : due.month ≤ 12) :
    1 ≤ monthsLate today due := by
  rw [dateLt_iff] at h
  simp only [monthsLate]
  split_ifs <;> omega

/-- `months_late` is non-decreasing as the evaluation date advances, for
calendar dates with months in `1..12`. -/
theorem monthsLate_mono {d1 d2 due : Date} (h : dateLe d1 d2 = true)
    (hm1 : 1 ≤ d1.month) (hm2 : d1.month ≤ 12)
    (hm3 : 1 ≤ d2.month) (hm4 : d2.month ≤ 12) :
    monthsLate d1 due ≤ monthsLate d2 due := by
  rw [dateLe_iff] at h
  simp only [monthsLate]
  split_ifs <;> omega

/-- Setting the element already at a position leaves the list unchanged. -/
theorem list_set_getElem_self {α : Type} :
    ∀ (xs : List α) (i : Nat) (p : α), xs[i]? = some p → xs.set i p = xs
  | [], _, _, h => by simp at h
  | x :: xs, 0, p, h => by
      simp only [List.getElem?_cons_zero, Option.some.injEq] at h
      simp [List.set, h]
  | x :: xs, i + 1, p, h => by
      simp only [List.getElem?_cons_succ] at h
      simp [List.set, list_set_getElem_self xs i p h]

/-- Appending a payment decreases the remaining balance by its principal. -/
theorem remaining_balance_append (l : Loan) (p : Payment) (s : LoanStatus) :
    Loan.remaining_balance { l with status := s, payments := l.payments ++ [p] }
      = l.remaining_balance - p.principal_amount := by
  simp [Loan.remaining_balance]
  ring

/-- `current_interest_due` is never negative. -/
theorem current_interest_due_nonneg (l : Loan) : 0 ≤ l.current_interest_due := by
  simp only [Loan.current_interest_due]
  split_ifs with h
  · exact le_refl 0
  · push_neg at h
    exact roundHalfEven_nonneg (by norm_num)
      (by have := h.2; nlinarith)

-- Sanity examples (concrete evaluations of the embedding).

example : roundHalfEven (100 * 15) 1000 = 2 := by decide
example : roundHalfEven (300 * 15) 1000 = 4 := by decide
example : roundHalfEven (100000 * 15) 1000 = 1500 := by decide
example : Date.addMonths ⟨2025, 1, 31⟩ 1 = ⟨2025, 2, 28⟩ := by decide
example : Date.addDays ⟨2025, 1, 1⟩ 65 = ⟨2025, 3, 7⟩ := by decide
example : Int.tdiv (-500) 10000 = 0 := by decide

/-! ## Claims -/

/-- C9. Loan creation for a member fails with a validation error exactly when
the member already has a loan with status ≠ `paid`, or total savings ≤ 0, or
the amount exceeds twice the total savings, or the monthly payment exceeds
the amount; otherwise the loan is created with status `active`. -/
theorem C9_register_loan_guards (m : Member) (approved : Date)
    (amount monthly : Money) :
    ((∃ loan, register_loan m approved amount monthly = .ok loan) ↔
      (¬ ∃ l ∈ m.loans, l.status ≠ LoanStatus.paid) ∧ 0 < m.total_savings ∧
        amount ≤ 2 * m.total_savings ∧ monthly ≤ amount)
    ∧ (∀ loan, register_loan m approved amount monthly = .ok loan →
        loan.status = .active) := by
  have hfilter :
      1 ≤ (m.loans.filter (fun l => l.status = LoanStatus.active)).length ↔
        ∃ l ∈ m.loans, l.status ≠ LoanStatus.paid := by
    constructor
    · intro h
      obtain ⟨l, hl⟩ := List.exists_mem_of_length_pos h
      rw [List.mem_filter] at hl
      refine ⟨l, hl.1, ?_⟩
      have : l.status = LoanStatus.active := by simpa using hl.2
      rw [this]
      intro hc
      cases hc
    · rintro ⟨l, hmem, hne⟩
      have hact : l.status = LoanStatus.active := by
        cases hstat : l.status
        · rfl
        · exact absurd hstat hne
      exact List.length_pos_of_mem (List.mem_filter.mpr ⟨hmem, by simp [hact]⟩)
  constructor
  · simp only [register_loan]
    split_ifs with h1 h2 h3 h4
    · constructor
      · rintro ⟨loan, hl⟩
        simp at hl
      · rintro ⟨hno, -, -, -⟩
        exact absurd (hfilter.mp h1) hno
    · constructor
      · rintro ⟨loan, hl⟩
        simp at hl
      · rintro ⟨-, hs, -, -⟩
        exact absurd h2 (not_le.mpr hs)
    · constructor
      · rintro ⟨loan, hl⟩
        simp at hl
      · rintro ⟨-, -, ha, -⟩
        exact absurd h3 (not_lt.mpr ha)
    · constructor
      · rintro ⟨loan, hl⟩
        simp at hl
      · rintro ⟨-, -, -, hm⟩
        exact absurd h4 (not_lt.mpr hm)
    · exact ⟨fun _ => ⟨fun hex => absurd (hfilter.mpr hex) h1,
        not_le.mp h2, not_lt.mp h3, not_lt.mp h4⟩, fun _ => ⟨_, rfl⟩⟩
  · intro loan h
    simp only [register_loan] at h
    split_ifs at h
    simp only [Except.ok.injEq] at h
    rw [← h]

/-- Witness for C9 at a concrete member with savings `500.00` and no loans. -/
theorem C9_register_loan_guards_witness :
    c9Loan.status = .active :=
  (C9_register_loan_guards c9Member ⟨2025, 1, 1⟩ 10000 1000).2 c9Loan rfl

/-- C2. For an active loan, `register_payment` rejects with the overpayment
error exactly when the amount exceeds
`remaining_balance + current_interest_due + accumulated_late_fees`; otherwise
it records exactly one payment whose components follow the three-bucket
waterfall (late fees, then interest, then principal), and flips the status
to `paid` iff `remaining_balance - principal_amount ≤ 0`. In particular
Scenario A: amount `1000.00`, monthly payment `100.00`, first on-time payment
of `100.00` splits as interest `15.00` and principal `85.00`. -/
theorem C2_register_payment_waterfall (l : Loan) (today : Date) (a : Money)
    (h : l.status = .active) :
    (register_payment l today a = .error .overpayment ↔
      l.remaining_balance + l.current_interest_due
        + l.accumulated_late_fees today < a)
    ∧ (a ≤ l.remaining_balance + l.current_interest_due
          + l.accumulated_late_fees today →
        ∃ p l', register_payment l today a = .ok (p, l')
          ∧ p.late_fee_amount = min a (l.accumulated_late_fees today)
          ∧ p.interest_amount = min (a - p.late_fee_amount) l.current_interest_due
          ∧ p.principal_amount = a - p.late_fee_amount - p.interest_amount
          ∧ l'.payments = l.payments ++ [p]
          ∧ (l'.status = .paid ↔ l.remaining_balance - p.principal_amount ≤ 0))
    ∧ register_payment scenarioALoan ⟨2025, 1, 1⟩ 10000 =
        .ok (⟨8500, 1500, 0⟩, scenarioALoanAfter) := by
  have hnp : ¬ (l.status = LoanStatus.paid) := by
    rw [h]; intro hc; cases hc
  refine ⟨?_, ?_, rfl⟩
  · simp only [register_payment, if_neg hnp]
    split_ifs with hover
    · exact ⟨fun _ => hover, fun _ => rfl⟩
    · constructor
      · intro he
        simp at he
      · intro hlt
        exact absurd hlt hover
  · intro hle
    simp only [register_payment, if_neg hnp, if_neg (not_lt.mpr hle)]
    refine ⟨_, _, rfl, rfl, rfl, rfl, rfl, ?_⟩
    dsimp only
    split_ifs with hc
    · simpa using hc
    · constructor
      · intro hc'
        rw [h] at hc'
        cases hc'
      · intro hc'
        exact absurd hc' hc

/-- Witness for C2: Scenario A discharges the hypotheses. -/
theorem C2_register_payment_waterfall_witness :
    ∃ p l', register_payment scenarioALoan ⟨2025, 1, 1⟩ 10000 = .ok (p, l')
      ∧ p.late_fee_amount = min 10000 (scenarioALoan.accumulated_late_fees ⟨2025, 1, 1⟩)
      ∧ p.interest_amount
          = min (10000 - p.late_fee_amount) scenarioALoan.current_interest_due
      ∧ p.principal_amount = 10000 - p.late_fee_amount - p.interest_amount
      ∧ l'.payments = scenarioALoan.payments ++ [p]
      ∧ (l'.status = .paid ↔
          scenarioALoan.remaining_balance - p.principal_amount ≤ 0) :=
  (C2_register_payment_waterfall scenarioALoan ⟨2025, 1, 1⟩ 10000 rfl).2.1
    (by decide)

/-- C3. Amending a payment reconstructs the pre-payment state
(`pre_principal = remaining_balance + old.principal_amount`,
`pre_interest = round(pre_principal * 0.015, 2)` recomputed fresh,
`pre_late = accumulated_late_fees + old.late_fee_amount`), rejects any new
amount above their sum, and otherwise overwrites the stored components with
the waterfall split of the new amount against `(pre_late, pre_interest)`.
In particular Scenario C: a `500.00` loan's payment of `50.00` amended to
`100.00` becomes interest `7.50`, principal `92.50`. -/
theorem C3_update_payment_reconstruction (l : Loan) (idx : Nat) (today : Date)
    (a : Money) (old : Payment) (hget : l.payments[idx]? = some old) :
    (update_payment l idx today a = .error .overpayment ↔
      (l.remaining_balance + old.principal_amount)
        + roundHalfEven ((l.remaining_balance + old.principal_amount) * 15) 1000
        + (l.accumulated_late_fees today + old.late_fee_amount) < a)
    ∧ (a ≤ (l.remaining_balance + old.principal_amount)
        + roundHalfEven ((l.remaining_balance + old.principal_amount) * 15) 1000
        + (l.accumulated_late_fees today + old.late_fee_amount) →
        ∃ l', update_payment l idx today a =
            .ok (waterfall a (l.accumulated_late_fees today + old.late_fee_amount)
                  (roundHalfEven ((l.remaining_balance + old.principal_amount) * 15) 1000),
                l')
          ∧ l'.payments = l.payments.set idx
              (waterfall a (l.accumulated_late_fees today + old.late_fee_amount)
                (roundHalfEven ((l.remaining_balance + old.principal_amount) * 15) 1000)))
    ∧ update_payment scenarioCLoan 0 ⟨2025, 1, 1⟩ 10000 =
        .ok (⟨9250, 750, 0⟩, scenarioCLoanAfter) := by
  refine ⟨?_, ?_, rfl⟩
  · simp only [update_payment, hget]
    split_ifs with hover
    · exact ⟨fun _ => hover, fun _ => rfl⟩
    · constructor
      · intro he
        simp at he
      · intro hlt
        exact absurd hlt hover
  · intro hle
    simp only [update_payment, hget, if_neg (not_lt.mpr hle)]
    exact ⟨_, rfl, rfl⟩

/-- Witness for C3: Scenario C discharges the hypotheses. -/
theorem C3_update_payment_reconstruction_witness :
    ∃ l', update_payment scenarioCLoan 0 ⟨2025, 1, 1⟩ 10000 =
        .ok (waterfall 10000
              (scenarioCLoan.accumulated_late_fees ⟨2025, 1, 1⟩ + 0)
              (roundHalfEven ((scenarioCLoan.remaining_balance + 4250) * 15) 1000),
            l')
      ∧ l'.payments = scenarioCLoan.payments.set 0
          (waterfall 10000
            (scenarioCLoan.accumulated_late_fees ⟨2025, 1, 1⟩ + 0)
            (roundHalfEven ((scenarioCLoan.remaining_balance + 4250) * 15) 1000)) :=
  (C3_update_payment_reconstruction scenarioCLoan 0 ⟨2025, 1, 1⟩ 10000
    ⟨4250, 750, 0⟩ rfl).2.1 (by decide)

/-- C1 (counterexample). Deleting a zero-principal payment from a paid loan
leaves `remaining_balance ≤ 0` while the status has been reverted to
`active`: the delete path does not re-establish the equivalence. -/
theorem C1_counterexample :
    delete_payment c1Loan 0 = .ok (⟨0, 150, 0⟩, c1LoanAfter)
    ∧ ¬ (c1LoanAfter.status = .paid ↔ c1LoanAfter.remaining_balance ≤ 0) := by
  exact ⟨rfl, by decide⟩

/-- C1 (amended). The `status = paid ⇔ remaining_balance ≤ 0` equivalence is
re-established synchronously by the payment create and update paths; the
delete path always leaves the loan `active`, so after a delete the
equivalence holds exactly when the post-delete remaining balance is
positive. -/
theorem C1_amended_status_equivalence :
    (∀ (l : Loan) (today : Date) (a : Money) (p : Payment) (l' : Loan),
        register_payment l today a = .ok (p, l') → statusBalanceInvariant l')
    ∧ (∀ (l : Loan) (idx : Nat) (today : Date) (a : Money) (p : Payment)
        (l' : Loan),
        update_payment l idx today a = .ok (p, l') → statusBalanceInvariant l')
    ∧ (∀ (l : Loan) (idx : Nat) (p : Payment) (l' : Loan),
        delete_payment l idx = .ok (p, l') →
        l'.status = .active
          ∧ (statusBalanceInvariant l' ↔ 0 < l'.remaining_balance)) := by
  refine ⟨?_, ?_, ?_⟩
  · intro l today a p l' hok
    simp only [register_payment] at hok
    split_ifs at hok with hp hover hst
    · simp only [Except.ok.injEq, Prod.mk.injEq] at hok
      obtain ⟨hpeq, hleq⟩ := hok
      subst hpeq
      subst hleq
      simp only [statusBalanceInvariant]
      rw [remaining_balance_append]
      exact ⟨fun _ => hst, fun _ => trivial⟩
    · simp only [Except.ok.injEq, Prod.mk.injEq] at hok
      obtain ⟨hpeq, hleq⟩ := hok
      subst hpeq
      subst hleq
      simp only [statusBalanceInvariant]
      rw [remaining_balance_append]
      exact ⟨fun hc => absurd hc hp, fun hc => absurd hc hst⟩
  · intro l idx today a p l' hok
    cases hget : l.payments[idx]? with
    | none => simp [update_payment, hget] at hok
    | some old =>
      simp only [update_payment, hget] at hok
      split_ifs at hok with hover hst
      · simp only [Except.ok.injEq, Prod.mk.injEq] at hok
        obtain ⟨hpeq, hleq⟩ := hok
        subst hleq
        simp only [statusBalanceInvariant, Loan.remaining_balance] at hst ⊢
        exact ⟨fun _ => hst, fun _ => trivial⟩
      · simp only [Except.ok.injEq, Prod.mk.injEq] at hok
        obtain ⟨hpeq, hleq⟩ := hok
        subst hleq
        simp only [statusBalanceInvariant, Loan.remaining_balance] at hst ⊢
        constructor
        · intro hc'
          cases hc'
        · intro hc'
          exact absurd hc' hst
  · intro l idx p l' hok
    cases hget : l.payments[idx]? with
    | none => simp [delete_payment, hget] at hok
    | some old =>
      simp only [delete_payment, hget, Except.ok.injEq, Prod.mk.injEq] at hok
      obtain ⟨hpeq, hleq⟩ := hok
      subst hleq
      have hstat' : (if l.status = LoanStatus.paid then LoanStatus.active
          else l.status) = LoanStatus.active := by
        split_ifs with hp
        · rfl
        · cases hstat : l.status
          · rfl
          · exact absurd hstat hp
      refine ⟨hstat', ?_⟩
      simp only [statusBalanceInvariant]
      rw [hstat']
      constructor
      · intro hiff
        by_contra hnb
        have hle0 := not_lt.mp hnb
        have : LoanStatus.active = LoanStatus.paid := hiff.mpr hle0
        cases this
      · intro hpos
        constructor
        · intro hc
          cases hc
        · intro hle
          exact absurd hle (not_le.mpr hpos)

/-- Witness for C1 (amended): concrete create, update and delete runs. -/
theorem C1_amended_status_equivalence_witness :
    statusBalanceInvariant c1RegAfter
    ∧ statusBalanceInvariant c1UpdAfter
    ∧ (c1DelAfter.status = .active
        ∧ (statusBalanceInvariant c1DelAfter ↔ 0 < c1DelAfter.remaining_balance)) :=
  ⟨C1_amended_status_equivalence.1 c1RegLoan ⟨2025, 1, 1⟩ 10000
      ⟨8500, 1500, 0⟩ c1RegAfter rfl,
   C1_amended_status_equivalence.2.1 c1RegAfter 0 ⟨2025, 1, 1⟩ 5000
      ⟨3500, 1500, 0⟩ c1UpdAfter rfl,
   C1_amended_status_equivalence.2.2 c1RegAfter 0 ⟨8500, 1500, 0⟩ c1DelAfter rfl⟩

/-- C4. The amendment route's two-phase commit is not atomic: the amended
payment components are committed by the first `session.commit()`, so when
the second (status) commit fails and is rolled back, the durable store holds
the new components with the stale status — neither the original state nor
the fully amended one. Evaluated at `c4Loan` amended to `0.00`. -/
theorem C4_two_phase_not_atomic :
    update_payment_durable c4Loan 0 ⟨2025, 1, 1⟩ 0 true ≠ c4Loan
    ∧ update_payment_durable c4Loan 0 ⟨2025, 1, 1⟩ 0 true
        ≠ update_payment_durable c4Loan 0 ⟨2025, 1, 1⟩ 0 false
    ∧ (update_payment_durable c4Loan 0 ⟨2025, 1, 1⟩ 0 true).payments
        = [⟨0, 0, 0⟩]
    ∧ (update_payment_durable c4Loan 0 ⟨2025, 1, 1⟩ 0 true).status = .paid
    ∧ update_payment c4Loan 0 ⟨2025, 1, 1⟩ 0 =
        .ok (⟨0, 0, 0⟩, update_payment_durable c4Loan 0 ⟨2025, 1, 1⟩ 0 false) := by
  exact ⟨by decide, by decide, by decide, by decide, rfl⟩

/-- C10 (counterexample). A negative requested amount is accepted, but the
waterfall records it entirely as a negative `late_fee_amount`; the
`principal_amount` is zero, not negative. -/
theorem C10_counterexample :
    register_payment c10Loan ⟨2025, 1, 1⟩ (-500) = .ok (⟨0, 0, -500⟩, c10After)
    ∧ ¬ ((⟨0, 0, -500⟩ : Payment).principal_amount < 0)
    ∧ (⟨0, 0, -500⟩ : Payment).late_fee_amount < 0 := by
  exact ⟨rfl, by decide, by decide⟩

/-- C10 (amended). Payment creation enforces no lower bound on the amount:
for an active loan, every amount not exceeding
`remaining_balance + current_interest_due + accumulated_late_fees` is
accepted and creates a payment; a negative amount (with non-negative late
fees due) yields a payment recording the whole amount as a negative
`late_fee_amount`, with zero interest and zero principal. -/
theorem C10_amended_no_lower_bound (l : Loan) (today : Date) (a : Money)
    (h : l.status = .active)
    (hle : a ≤ l.remaining_balance + l.current_interest_due
        + l.accumulated_late_fees today) :
    (∃ p l', register_payment l today a = .ok (p, l'))
    ∧ (a < 0 → 0 ≤ l.accumulated_late_fees today →
        ∃ l', register_payment l today a = .ok (⟨0, 0, a⟩, l')) := by
  have hnp : ¬ (l.status = LoanStatus.paid) := by
    rw [h]; intro hc; cases hc
  constructor
  · simp only [register_payment, if_neg hnp, if_neg (not_lt.mpr hle)]
    exact ⟨_, _, rfl⟩
  · intro ha hf
    have hw : waterfall a (l.accumulated_late_fees today) l.current_interest_due
        = ⟨0, 0, a⟩ := by
      have h1 : min a (l.accumulated_late_fees today) = a :=
        min_eq_left (le_trans (le_of_lt ha) hf)
      have h2 : min (0 : Money) l.current_interest_due = 0 :=
        min_eq_left (current_interest_due_nonneg l)
      simp only [waterfall, h1, sub_self, h2, sub_zero]
    simp only [register_payment, if_neg hnp, if_neg (not_lt.mpr hle), hw]
    exact ⟨_, rfl⟩

/-- Witness for C10 (amended) at the concrete `-5.00` payment. -/
theorem C10_amended_no_lower_bound_witness :
    (∃ p l', register_payment c10Loan ⟨2025, 1, 1⟩ (-500) = .ok (p, l'))
    ∧ (∃ l', register_payment c10Loan ⟨2025, 1, 1⟩ (-500)
        = .ok (⟨0, 0, -500⟩, l')) :=
  ⟨(C10_amended_no_lower_bound c10Loan ⟨2025, 1, 1⟩ (-500) rfl (by decide)).1,
   (C10_amended_no_lower_bound c10Loan ⟨2025, 1, 1⟩ (-500) rfl (by decide)).2
     (by decide) (by decide)⟩

/-- C5. `accumulated_late_fees` is 0 when the loan is paid (equivalently has
no due date); otherwise, when today is strictly past the due date it equals
`round(monthly_payment * 0.03 * months_late, 2)` with
`months_late = (Δyear)*12 + (Δmonth)`, incremented by one when
`today.day ≥ due.day`, and it is 0 when today is not past the due date.
In particular Scenario D: a loan approved 65 days ago with monthly payment
`1000.00` and zero payments has accumulated late fees `60.00`. -/
theorem C5_late_fee_formula (l : Loan) (today : Date)
    (hm1 : 1 ≤ today.month) (hm2 : today.month ≤ 12) :
    (l.next_due_date = none → l.accumulated_late_fees today = 0)
    ∧ (l.status = .paid → l.accumulated_late_fees today = 0)
    ∧ (∀ due, l.next_due_date = some due →
        (dateLt due today = true →
          l.accumulated_late_fees today =
            roundHalfEven (l.monthly_payment * 3 * monthsLate today due) 100)
        ∧ (dateLt due today = false → l.accumulated_late_fees today = 0))
    ∧ c5Loan.accumulated_late_fees (Date.addDays c5Loan.approved_at 65) = 6000 := by
  refine ⟨?_, ?_, ?_, by decide⟩
  · intro hnone
    simp [Loan.accumulated_late_fees, hnone]
  · intro hpaid
    have hnone : l.next_due_date = none := by
      simp [Loan.next_due_date, hpaid]
    simp [Loan.accumulated_late_fees, hnone]
  · intro due hdue
    have hdm : 1 ≤ due.month ∧ due.month ≤ 12 := by
      simp only [Loan.next_due_date] at hdue
      split_ifs at hdue with hp
      simp only [Option.some.injEq] at hdue
      rw [← hdue]
      exact addMonths_month_bounds l.approved_at (l.expected_installments_paid + 1)
    constructor
    · intro hlt
      have hml : 1 ≤ monthsLate today due :=
        monthsLate_pos hlt hm1 hm2 hdm.1 hdm.2
      simp only [Loan.accumulated_late_fees, hdue, hlt, if_true]
      rw [if_pos (by omega)]
    · intro hnlt
      simp only [Loan.accumulated_late_fees, hdue]
      rw [if_neg (by simp [hnlt])]

/-- Witness for C5: Scenario D's concrete loan and dates discharge the
hypotheses (today `2025-03-07`, due date `2025-02-01`). -/
theorem C5_late_fee_formula_witness :
    c5Loan.accumulated_late_fees ⟨2025, 3, 7⟩ =
      roundHalfEven (c5Loan.monthly_payment * 3 * monthsLate ⟨2025, 3, 7⟩ ⟨2025, 2, 1⟩) 100 :=
  ((C5_late_fee_formula c5Loan ⟨2025, 3, 7⟩ (by decide) (by decide)).2.2.1
    ⟨2025, 2, 1⟩ rfl).1 (by decide)

/-- C6 (counterexample). With a negative payment total (reachable via a
negative-amount payment), the code's `Decimal` floor-division truncates
toward zero while the spec's `floor` rounds down: they differ on `c6Loan`. -/
theorem C6_counterexample :
    Loan.expected_installments_paid c6Loan = 0
    ∧ spec_expected_installments_paid c6Loan = -1
    ∧ Loan.expected_installments_paid c6Loan ≠ spec_expected_installments_paid c6Loan := by
  exact ⟨by decide, by decide, by decide⟩

/-- C6 (amended). `expected_installments_paid` is the truncated-toward-zero
integer quotient of the payment total by the monthly payment (0 when the
monthly payment is ≤ 0), which agrees with the spec's floor whenever the
payment total is non-negative; `next_due_date` is `None` exactly when the
loan is paid and otherwise is `approved_at` plus
`expected_installments_paid + 1` calendar months, with day-of-month overflow
clamped (Jan 31 + 1 month = Feb 28 in 2025). -/
theorem C6_amended_installments_due_date (l : Loan) (h : 0 ≤ l.total_cash_paid) :
    l.expected_installments_paid = spec_expected_installments_paid l
    ∧ (l.next_due_date = none ↔ l.status = .paid)
    ∧ (∀ d, l.next_due_date = some d →
        d = l.approved_at.addMonths (l.expected_installments_paid + 1))
    ∧ Date.addMonths ⟨2025, 1, 31⟩ 1 = ⟨2025, 2, 28⟩ := by
  refine ⟨?_, ?_, ?_, by decide⟩
  · simp only [Loan.expected_installments_paid, spec_expected_installments_paid]
    split_ifs with hmp
    · rfl
    · exact (Int.fdiv_eq_tdiv h (le_of_lt (not_le.mp hmp))).symm
  · simp only [Loan.next_due_date]
    split_ifs with hp
    · simp [hp]
    · simp [hp]
  · intro d hd
    simp only [Loan.next_due_date] at hd
    split_ifs at hd with hp
    simp only [Option.some.injEq] at hd
    rw [hd]

/-- Witness for C6 (amended) at a loan with non-negative cash history. -/
theorem C6_amended_installments_due_date_witness :
    Loan.expected_installments_paid c6WLoan = spec_expected_installments_paid c6WLoan
    ∧ Date.addMonths ⟨2025, 1, 31⟩ 1 = ⟨2025, 2, 28⟩ :=
  ⟨(C6_amended_installments_due_date c6WLoan (by decide)).1,
   (C6_amended_installments_due_date c6WLoan (by decide)).2.2.2⟩

/-- C7 (counterexample). Amending `c7Loan`'s single payment to its own total
(`10.00`) on `2025-06-01`, after `1.20` of late fees has accrued, changes the
stored split from `(principal 8.50, interest 1.50, late fee 0)` to
`(principal 7.30, interest 1.50, late fee 1.20)`. -/
theorem C7_counterexample :
    c7Loan.payments[0]? = some ⟨850, 150, 0⟩
    ∧ Payment.total_amount ⟨850, 150, 0⟩ = 1000
    ∧ update_payment c7Loan 0 ⟨2025, 6, 1⟩ 1000 = .ok (⟨730, 150, 120⟩, c7LoanAfter)
    ∧ (⟨730, 150, 120⟩ : Payment) ≠ (⟨850, 150, 0⟩ : Payment) := by
  exact ⟨by decide, by decide, rfl, by decide⟩

/-- C7 (amended). Amending a payment to its own current total leaves all
three stored components unchanged provided the stored split is already the
waterfall split of that total against the reconstructed pre-payment state —
as holds right after creation while no further late fees have accrued. If
late fees have accrued since, the same-amount amendment reallocates cash
from principal into late fees. -/
theorem C7_amended_waterfall_idempotence (l : Loan) (idx : Nat) (today : Date)
    (p : Payment) (hget : l.payments[idx]? = some p)
    (hfix : waterfall p.total_amount
        (l.accumulated_late_fees today + p.late_fee_amount)
        (roundHalfEven ((l.remaining_balance + p.principal_amount) * 15) 1000) = p)
    (hguard : p.total_amount ≤
        (l.remaining_balance + p.principal_amount)
        + roundHalfEven ((l.remaining_balance + p.principal_amount) * 15) 1000
        + (l.accumulated_late_fees today + p.late_fee_amount)) :
    ∃ l', update_payment l idx today p.total_amount = .ok (p, l')
      ∧ l'.payments = l.payments := by
  simp only [update_payment, hget, if_neg (not_lt.mpr hguard), hfix]
  exact ⟨_, rfl, list_set_getElem_self l.payments idx p hget⟩

/-- Witness for C7 (amended): `c7WLoan`'s payment re-amended to its own
total `50.00` on the day of approval (no late fees accrued). -/
theorem C7_amended_waterfall_idempotence_witness :
    ∃ l', update_payment c7WLoan 0 ⟨2025, 1, 1⟩
        (Payment.total_amount ⟨4250, 750, 0⟩) = .ok (⟨4250, 750, 0⟩, l')
      ∧ l'.payments = c7WLoan.payments :=
  C7_amended_waterfall_idempotence c7WLoan 0 ⟨2025, 1, 1⟩ ⟨4250, 750, 0⟩
    rfl (by decide) (by decide)

/-- C8 (counterexample). For a loan with negative `monthly_payment` (which
`register_loan`'s guards admit, since `monthly_payment > amount` fails),
accumulated late fees are 0 before the due date and `-6.00` two months
later: the fee is not non-decreasing in time. -/
theorem C8_counterexample :
    dateLe ⟨2025, 1, 15⟩ ⟨2025, 3, 7⟩ = true
    ∧ c8Loan.status ≠ .paid
    ∧ c8Loan.accumulated_late_fees ⟨2025, 1, 15⟩ = 0
    ∧ c8Loan.accumulated_late_fees ⟨2025, 3, 7⟩ = -600
    ∧ ¬ (c8Loan.accumulated_late_fees ⟨2025, 1, 15⟩
          ≤ c8Loan.accumulated_late_fees ⟨2025, 3, 7⟩) := by
  exact ⟨by decide, by decide, by decide, by decide, by decide⟩

/-- C8 (amended). For a fixed unpaid loan with non-negative
`monthly_payment` and a fixed payment history, `accumulated_late_fees` is
non-decreasing in the evaluation date (months taken in `1..12` as calendar
dates have). -/
theorem C8_amended_late_fee_monotone (l : Loan) (d1 d2 : Date)
    (hnp : l.status ≠ .paid) (hmp : 0 ≤ l.monthly_payment)
    (hle : dateLe d1 d2 = true)
    (h1 : 1 ≤ d1.month) (h2 : d1.month ≤ 12)
    (h3 : 1 ≤ d2.month) (h4 : d2.month ≤ 12) :
    l.accumulated_late_fees d1 ≤ l.accumulated_late_fees d2 := by
  have hdue : l.next_due_date =
      some (l.approved_at.addMonths (l.expected_installments_paid + 1)) := by
    simp [Loan.next_due_date, hnp]
  set due := l.approved_at.addMonths (l.expected_installments_paid + 1) with hdef
  have hdb := addMonths_month_bounds l.approved_at (l.expected_installments_paid + 1)
  rw [← hdef] at hdb
  simp only [Loan.accumulated_late_fees, hdue]
  by_cases hlt1 : dateLt due d1 = true
  · have hlt2 : dateLt due d2 = true := dateLt_of_lt_of_le hlt1 hle
    rw [if_pos hlt1, if_pos hlt2]
    have hml1 := monthsLate_pos hlt1 h1 h2 hdb.1 hdb.2
    have hml2 := monthsLate_pos hlt2 h3 h4 hdb.1 hdb.2
    rw [if_pos (by omega), if_pos (by omega)]
    apply roundHalfEven_mono (by norm_num)
    have hmono := @monthsLate_mono d1 d2 due hle h1 h2 h3 h4
    exact mul_le_mul_of_nonneg_left hmono (by linarith)
  · rw [if_neg hlt1]
    by_cases hlt2 : dateLt due d2 = true
    · rw [if_pos hlt2]
      have hml2 := monthsLate_pos hlt2 h3 h4 hdb.1 hdb.2
      rw [if_pos (by omega)]
      exact roundHalfEven_nonneg (by norm_num)
        (mul_nonneg (mul_nonneg hmp (by norm_num)) (by omega))
    · rw [if_neg hlt2]

/-- Witness for C8 (amended): Scenario-D-style loan evaluated at
`2025-02-15` (fee `30.00`) and `2025-03-07` (fee `60.00`). -/
theorem C8_amended_late_fee_monotone_witness :
    c8WLoan.accumulated_late_fees ⟨2025, 2, 15⟩
      ≤ c8WLoan.accumulated_late_fees ⟨2025, 3, 7⟩ :=
  C8_amended_late_fee_monotone c8WLoan ⟨2025, 2, 15⟩ ⟨2025, 3, 7⟩
    (by decide) (by decide) (by decide) (by decide) (by decide) (by decide)
    (by decide)
